import Mathlib

/-!
Shallow embedding of the double-pendulum simulator (`src/main.rs`).

The Rust program stores each pendulum as a `DoublePendulum` struct and advances
it with a classical RK4 step over the 4-vector `(theta1, theta2, omega1, omega2)`.
Machine `f64` arithmetic is modelled by the real numbers; the trace buffer
(`LinkedList<(f64, f64)>` with `push_front` / `pop_back`) is modelled by a
`List (ℝ × ℝ)` whose head is the newest entry.
-/

namespace DoublePendulumSim

/-- Model of `macroquad::color::Color` (four `f32` channels); the simulation
core never reads it. -/
structure Color where
  r : ℝ
  gc : ℝ
  b : ℝ
  a : ℝ

/-- Model of `glam`'s `DVec4`, the 4-vector used by the integrator. -/
structure DVec4 where
  x : ℝ
  y : ℝ
  z : ℝ
  w : ℝ

/-- `DVec4::new`. -/
def DVec4.new (x y z w : ℝ) : DVec4 := ⟨x, y, z, w⟩

/-- Componentwise vector addition, as `glam` implements `Add` for `DVec4`. -/
def DVec4.add (u v : DVec4) : DVec4 := ⟨u.x + v.x, u.y + v.y, u.z + v.z, u.w + v.w⟩

/-- Componentwise scalar multiplication, as `glam` implements `Mul<DVec4> for f64`. -/
def DVec4.smul (c : ℝ) (v : DVec4) : DVec4 := ⟨c * v.x, c * v.y, c * v.z, c * v.w⟩

instance : Add DVec4 := ⟨DVec4.add⟩

instance : HMul ℝ DVec4 DVec4 := ⟨DVec4.smul⟩

@[simp] theorem DVec4.add_def (u v : DVec4) :
    u + v = (⟨u.x + v.x, u.y + v.y, u.z + v.z, u.w + v.w⟩ : DVec4) := rfl

@[simp] theorem DVec4.smul_def (c : ℝ) (v : DVec4) :
    c * v = (⟨c * v.x, c * v.y, c * v.z, c * v.w⟩ : DVec4) := rfl

/-- The `DoublePendulum` struct of `main.rs`. -/
structure DoublePendulum where
  origin_x : ℝ
  origin_y : ℝ
  length : ℝ
  theta1 : ℝ
  theta2 : ℝ
  mass : ℝ
  angular1 : ℝ
  angular2 : ℝ
  color : Color
  prev_angles : List (ℝ × ℝ)

/-- `DoublePendulum::new`: mass fixed to `1.0`, zero angular velocities,
empty trace. -/
def DoublePendulum.new (origin_x origin_y length theta1 theta2 : ℝ)
    (color : Color) : DoublePendulum :=
  { origin_x := origin_x, origin_y := origin_y, length := length,
    theta1 := theta1, theta2 := theta2, mass := 1, angular1 := 0,
    angular2 := 0, color := color, prev_angles := [] }

/-- The gravitational constant `const g: f64 = 9.81`. -/
def g : ℝ := 9.81

namespace DoublePendulum

/-- `DoublePendulum::a1`. -/
noncomputable def a1 (_self : DoublePendulum) (theta1 theta2 : ℝ) : ℝ :=
  Real.cos (theta1 - theta2) / 2

/-- `DoublePendulum::a2`. -/
noncomputable def a2 (_self : DoublePendulum) (theta1 theta2 : ℝ) : ℝ :=
  Real.cos (theta1 - theta2)

/-- `DoublePendulum::f1`. -/
noncomputable def f1 (self : DoublePendulum)
    (theta1 theta2 _angular1 angular2 : ℝ) : ℝ :=
  -(angular2 * angular2) * Real.sin (theta1 - theta2) / 2
    - g / self.length * Real.sin theta1

/-- `DoublePendulum::f2`. -/
noncomputable def f2 (self : DoublePendulum)
    (theta1 theta2 angular1 _angular2 : ℝ) : ℝ :=
  (angular1 * angular1) * Real.sin (theta1 - theta2)
    - g / self.length * Real.sin theta2

/-- `DoublePendulum::g1`. -/
noncomputable def g1 (self : DoublePendulum) (t1 t2 ang1 ang2 : ℝ) : ℝ :=
  (self.f1 t1 t2 ang1 ang2 - self.a1 t1 t2 * self.f2 t1 t2 ang1 ang2) /
    (1 - self.a1 t1 t2 * self.a2 t1 t2)

/-- `DoublePendulum::g2`. -/
noncomputable def g2 (self : DoublePendulum) (t1 t2 ang1 ang2 : ℝ) : ℝ :=
  (-self.a2 t1 t2 * self.f1 t1 t2 ang1 ang2 + self.f2 t1 t2 ang1 ang2) /
    (1 - self.a1 t1 t2 * self.a2 t1 t2)

/-- `DoublePendulum::runge_kutta_func`: the ODE right-hand side. -/
noncomputable def runge_kutta_func (self : DoublePendulum) (params : DVec4) : DVec4 :=
  DVec4.new params.z params.w
    (self.g1 params.x params.y params.z params.w)
    (self.g2 params.x params.y params.z params.w)

/-- `DoublePendulum::update`: the RK4 step with the `timestep > 0.02` guard and
the trace push (front) with eviction (back) at capacity 144. -/
noncomputable def update (self : DoublePendulum) (timestep : ℝ) : DoublePendulum :=
  if timestep > 0.02 then self
  else
    let current := DVec4.new self.theta1 self.theta2 self.angular1 self.angular2
    let pushed := (self.theta1, self.theta2) :: self.prev_angles
    let new_prev := if pushed.length > 144 then pushed.dropLast else pushed
    let k1 := self.runge_kutta_func current
    let k2 := self.runge_kutta_func (current + (timestep / 2) * k1)
    let k3 := self.runge_kutta_func (current + (timestep / 2) * k2)
    let k4 := self.runge_kutta_func (current + timestep * k3)
    let updated := current + (timestep / 6) * (k1 + (2 : ℝ) * k2 + (2 : ℝ) * k3 + k4)
    { self with theta1 := updated.x, theta2 := updated.y,
                angular1 := updated.z, angular2 := updated.w,
                prev_angles := new_prev }

/-- `DoublePendulum::dx1`. -/
noncomputable def dx1 (self : DoublePendulum) : ℝ :=
  self.length * 100 * Real.sin self.theta1

/-- `DoublePendulum::dy1`. -/
noncomputable def dy1 (self : DoublePendulum) : ℝ :=
  self.length * 100 * Real.cos self.theta1

/-- `DoublePendulum::dx2`. -/
noncomputable def dx2 (self : DoublePendulum) : ℝ :=
  self.length * 100 * (Real.sin self.theta1 + Real.sin self.theta2)

/-- `DoublePendulum::dy2`. -/
noncomputable def dy2 (self : DoublePendulum) : ℝ :=
  self.length * 100 * (Real.cos self.theta1 + Real.cos self.theta2)

end DoublePendulum

/-- Iterated stepping: fold `update` over a list of timesteps, oldest first. -/
noncomputable def updates (self : DoublePendulum) (dts : List ℝ) : DoublePendulum :=
  dts.foldl DoublePendulum.update self

/-- Spec-side definition (for refinement comparison), following §4.1 of the
specification verbatim: the ODE right-hand side on a plain 4-tuple
`(theta1, theta2, omega1, omega2)` with `g = 9.81`. -/
noncomputable def specDeriv (L : ℝ) (s : ℝ × ℝ × ℝ × ℝ) : ℝ × ℝ × ℝ × ℝ :=
  let th1 := s.1
  let th2 := s.2.1
  let om1 := s.2.2.1
  let om2 := s.2.2.2
  let A1 := Real.cos (th1 - th2) / 2
  let A2 := Real.cos (th1 - th2)
  let F1 := -(om2 ^ 2) * Real.sin (th1 - th2) / 2 - (9.81 / L) * Real.sin th1
  let F2 := (om1 ^ 2) * Real.sin (th1 - th2) - (9.81 / L) * Real.sin th2
  (om1, om2, (F1 - A1 * F2) / (1 - A1 * A2), (-A2 * F1 + F2) / (1 - A1 * A2))

/-- Componentwise addition of 4-tuples (spec-side vector arithmetic). -/
def vadd (u v : ℝ × ℝ × ℝ × ℝ) : ℝ × ℝ × ℝ × ℝ :=
  (u.1 + v.1, u.2.1 + v.2.1, u.2.2.1 + v.2.2.1, u.2.2.2 + v.2.2.2)

/-- Componentwise scalar multiple of a 4-tuple (spec-side vector arithmetic). -/
def vsmul (c : ℝ) (v : ℝ × ℝ × ℝ × ℝ) : ℝ × ℝ × ℝ × ℝ :=
  (c * v.1, c * v.2.1, c * v.2.2.1, c * v.2.2.2)

/-- Spec-side definition (for refinement comparison), following §4.2 of the
specification verbatim: one classical RK4 step
`state + dt/6 * (k1 + 2*k2 + 2*k3 + k4)` over `specDeriv`. -/
noncomputable def specRK4 (L dt : ℝ) (s : ℝ × ℝ × ℝ × ℝ) : ℝ × ℝ × ℝ × ℝ :=
  let k1 := specDeriv L s
  let k2 := specDeriv L (vadd s (vsmul (dt / 2) k1))
  let k3 := specDeriv L (vadd s (vsmul (dt / 2) k2))
  let k4 := specDeriv L (vadd s (vsmul dt k3))
  vadd s (vsmul (dt / 6) (vadd (vadd (vadd k1 (vsmul 2 k2)) (vsmul 2 k3)) k4))

/-- Components of a `DVec4` as a 4-tuple, bridging the code-side vector type
and the spec-side tuples. -/
def DVec4.toTuple (v : DVec4) : ℝ × ℝ × ℝ × ℝ := (v.x, v.y, v.z, v.w)

/-- A concrete color for example pendulums. -/
def exampleColor : Color := ⟨1, 1, 1, 1⟩

/-- Concrete pendulum at the stable equilibrium: the constructor with
`origin = (300, 300)`, `length = 1`, both angles `0`. -/
def P0 : DoublePendulum := DoublePendulum.new 300 300 1 0 0 exampleColor

/-- Concrete pendulum at the equilibrium angles but with unit angular
velocities. -/
def P1 : DoublePendulum := { P0 with angular1 := 1, angular2 := 1 }

/-- Concrete pendulum with the same dynamic state as `P0` but a different
origin and color. -/
def P2 : DoublePendulum := DoublePendulum.new 0 0 1 0 0 ⟨0, 0, 0, 0⟩

theorem DVec4.toTuple_add (u v : DVec4) :
    (u + v).toTuple = vadd u.toTuple v.toTuple := rfl

theorem DVec4.toTuple_smul (c : ℝ) (v : DVec4) :
    (c * v).toTuple = vsmul c v.toTuple := rfl

theorem DVec4.toTuple_new (a b c d : ℝ) :
    (DVec4.new a b c d).toTuple = (a, b, c, d) := rfl

/-- The code's ODE right-hand side agrees with the spec-side `specDeriv`. -/
theorem toTuple_runge_kutta (self : DoublePendulum) (p : DVec4) :
    (self.runge_kutta_func p).toTuple = specDeriv self.length p.toTuple := by
  simp only [DoublePendulum.runge_kutta_func, specDeriv, DVec4.toTuple, DVec4.new,
    DoublePendulum.g1, DoublePendulum.g2, DoublePendulum.f1, DoublePendulum.f2,
    DoublePendulum.a1, DoublePendulum.a2, g, Prod.mk.injEq]
  refine ⟨trivial, trivial, ?_, ?_⟩ <;> ring_nf

theorem DVec4.tuple_proj (v : DVec4) : (v.x, v.y, v.z, v.w) = v.toTuple := rfl

/-- The ODE right-hand side vanishes at the stable equilibrium vector. -/
theorem runge_kutta_zero (self : DoublePendulum) :
    self.runge_kutta_func ⟨0, 0, 0, 0⟩ = (⟨0, 0, 0, 0⟩ : DVec4) := by
  simp [DoublePendulum.runge_kutta_func, DoublePendulum.g1, DoublePendulum.g2,
    DoublePendulum.f1, DoublePendulum.f2, DoublePendulum.a1, DoublePendulum.a2,
    DVec4.new]

/-- C1: for every real 4-vector `(theta1, theta2, omega1, omega2)` and every
positive length, `runge_kutta_func` returns `(omega1, omega2, alpha1, alpha2)`
where the accelerations are exactly the spec's §4.1 formulas with
`a1 = cos(theta1-theta2)/2`, `a2 = cos(theta1-theta2)`,
`f1 = -(omega2^2) sin(theta1-theta2)/2 - (g/L) sin theta1`,
`f2 = (omega1^2) sin(theta1-theta2) - (g/L) sin theta2`, `g = 9.81`
(the definition `specDeriv` transcribes them). -/
theorem runge_kutta_func_matches_spec (self : DoublePendulum) (p : DVec4)
    (hL : 0 < self.length) :
    (self.runge_kutta_func p).toTuple = specDeriv self.length (p.x, p.y, p.z, p.w) :=
  toTuple_runge_kutta self p

theorem runge_kutta_func_matches_spec_witness :
    0 < P0.length ∧
      (P0.runge_kutta_func (DVec4.new 1 2 3 4)).toTuple
        = specDeriv P0.length
            ((DVec4.new 1 2 3 4).x, (DVec4.new 1 2 3 4).y,
             (DVec4.new 1 2 3 4).z, (DVec4.new 1 2 3 4).w) :=
  ⟨by norm_num [P0, DoublePendulum.new],
   runge_kutta_func_matches_spec P0 (DVec4.new 1 2 3 4)
     (by norm_num [P0, DoublePendulum.new])⟩

/-- C2: for every state and every `dt ≤ 0.02`, `update` overwrites the dynamic
4-vector `(theta1, theta2, omega1, omega2)` with
`state + dt/6 * (k1 + 2*k2 + 2*k3 + k4)` where `k1 = f(state)`,
`k2 = f(state + dt/2 * k1)`, `k3 = f(state + dt/2 * k2)`,
`k4 = f(state + dt * k3)`, `f` the §4.1 right-hand side and the vector
arithmetic componentwise (the definition `specRK4` transcribes this). -/
theorem update_matches_rk4_spec (self : DoublePendulum) (dt : ℝ) (h : dt ≤ 0.02) :
    ((self.update dt).theta1, (self.update dt).theta2,
      (self.update dt).angular1, (self.update dt).angular2)
      = specRK4 self.length dt (self.theta1, self.theta2, self.angular1, self.angular2) := by
  have hg : ¬ dt > 0.02 := not_lt.mpr h
  rw [DoublePendulum.update, if_neg hg]
  simp only []
  rw [DVec4.tuple_proj]
  simp only [specRK4, DVec4.toTuple_add, DVec4.toTuple_smul, toTuple_runge_kutta,
    DVec4.toTuple_new]

theorem update_matches_rk4_spec_witness :
    (1 / 100 : ℝ) ≤ 0.02 ∧
      ((P0.update (1 / 100)).theta1, (P0.update (1 / 100)).theta2,
        (P0.update (1 / 100)).angular1, (P0.update (1 / 100)).angular2)
        = specRK4 P0.length (1 / 100) (P0.theta1, P0.theta2, P0.angular1, P0.angular2) :=
  ⟨by norm_num, update_matches_rk4_spec P0 (1 / 100) (by norm_num)⟩

/-- C3: for every pendulum state and every `dt > 0.02`, `update` is a complete
no-op: the whole record, trace buffer included, is returned unchanged. -/
theorem update_large_dt_noop (self : DoublePendulum) (dt : ℝ) (h : dt > 0.02) :
    self.update dt = self := by
  rw [DoublePendulum.update, if_pos h]

theorem update_large_dt_noop_witness :
    (1 : ℝ) > 0.02 ∧ P0.update 1 = P0 :=
  ⟨by norm_num, update_large_dt_noop P0 1 (by norm_num)⟩

/-- C6: the denominator `1 - a1*a2 = 1 - cos(theta1-theta2)^2 / 2` always lies
in `[1/2, 1]`; in particular it is never zero, so the divisions in `g1` and
`g2` are well defined for all real angles. -/
theorem denominator_in_bounds (self : DoublePendulum) (t1 t2 : ℝ) :
    1 / 2 ≤ 1 - self.a1 t1 t2 * self.a2 t1 t2 ∧
      1 - self.a1 t1 t2 * self.a2 t1 t2 ≤ 1 ∧
      1 - self.a1 t1 t2 * self.a2 t1 t2 ≠ 0 := by
  have h1 : Real.cos (t1 - t2) ^ 2 ≤ 1 := Real.cos_sq_le_one _
  have h2 : 0 ≤ Real.cos (t1 - t2) ^ 2 := sq_nonneg _
  simp only [DoublePendulum.a1, DoublePendulum.a2]
  exact ⟨by nlinarith, by nlinarith, ne_of_gt (by nlinarith)⟩

/-- C7: for `0 ≤ dt ≤ 0.02`, `update` applied at the stable equilibrium
(`theta1 = theta2 = 0`, `omega1 = omega2 = 0`) leaves all four dynamic fields
exactly at zero. -/
theorem equilibrium_fixed_point (self : DoublePendulum) (dt : ℝ)
    (h1 : self.theta1 = 0) (h2 : self.theta2 = 0)
    (h3 : self.angular1 = 0) (h4 : self.angular2 = 0)
    (hd0 : 0 ≤ dt) (hd : dt ≤ 0.02) :
    (self.update dt).theta1 = 0 ∧ (self.update dt).theta2 = 0 ∧
      (self.update dt).angular1 = 0 ∧ (self.update dt).angular2 = 0 := by
  have hg : ¬ dt > 0.02 := not_lt.mpr hd
  rw [DoublePendulum.update, if_neg hg]
  simp only [h1, h2, h3, h4, DVec4.new, runge_kutta_zero, DVec4.add_def,
    DVec4.smul_def, mul_zero, add_zero, and_self]

theorem equilibrium_fixed_point_witness :
    (P0.theta1 = 0 ∧ P0.theta2 = 0 ∧ P0.angular1 = 0 ∧ P0.angular2 = 0 ∧
      (0 : ℝ) ≤ 1 / 100 ∧ (1 / 100 : ℝ) ≤ 0.02) ∧
    ((P0.update (1 / 100)).theta1 = 0 ∧ (P0.update (1 / 100)).theta2 = 0 ∧
      (P0.update (1 / 100)).angular1 = 0 ∧ (P0.update (1 / 100)).angular2 = 0) :=
  ⟨⟨rfl, rfl, rfl, rfl, by norm_num, by norm_num⟩,
   equilibrium_fixed_point P0 (1 / 100) rfl rfl rfl rfl (by norm_num) (by norm_num)⟩

/-- C9: the `mass` field never affects the dynamics: changing only `mass`
leaves the ODE right-hand side, the four dynamic fields after `update`, and
the trace identical. -/
theorem mass_irrelevant (self : DoublePendulum) (m : ℝ) (p : DVec4) (dt : ℝ) :
    ({ self with mass := m } : DoublePendulum).runge_kutta_func p
        = self.runge_kutta_func p ∧
      (({ self with mass := m } : DoublePendulum).update dt).theta1
        = (self.update dt).theta1 ∧
      (({ self with mass := m } : DoublePendulum).update dt).theta2
        = (self.update dt).theta2 ∧
      (({ self with mass := m } : DoublePendulum).update dt).angular1
        = (self.update dt).angular1 ∧
      (({ self with mass := m } : DoublePendulum).update dt).angular2
        = (self.update dt).angular2 ∧
      (({ self with mass := m } : DoublePendulum).update dt).prev_angles
        = (self.update dt).prev_angles := by
  have hrk : ∀ q, ({ self with mass := m } : DoublePendulum).runge_kutta_func q
      = self.runge_kutta_func q := fun _ => rfl
  refine ⟨rfl, ?_, ?_, ?_, ?_, ?_⟩ <;> by_cases hg : dt > 0.02 <;>
    simp only [DoublePendulum.update, hg, if_true, if_false, ite_true, ite_false, hrk]

/-- One `update` keeps the trace length at most 144. -/
theorem update_trace_length_le (self : DoublePendulum) (dt : ℝ)
    (h : self.prev_angles.length ≤ 144) :
    (self.update dt).prev_angles.length ≤ 144 := by
  by_cases hg : dt > 0.02
  · rw [DoublePendulum.update, if_pos hg]; exact h
  · rw [DoublePendulum.update, if_neg hg]
    simp only []
    split
    next hlen =>
      simp only [List.length_dropLast, List.length_cons]
      omega
    next hlen =>
      simp only [List.length_cons] at hlen ⊢
      omega

/-- Iterated `update` keeps the trace length at most 144. -/
theorem updates_trace_length_le (dts : List ℝ) (self : DoublePendulum)
    (h : self.prev_angles.length ≤ 144) :
    (updates self dts).prev_angles.length ≤ 144 := by
  induction dts generalizing self with
  | nil => exact h
  | cons dt rest ih => exact ih _ (update_trace_length_le self dt h)

/-- When a step is taken, the new trace is the pushed pair followed by the old
entries, truncated to the 144 newest. -/
theorem update_trace_take (self : DoublePendulum) (dt : ℝ) (hdt : dt ≤ 0.02)
    (h : self.prev_angles.length ≤ 144) :
    (self.update dt).prev_angles
      = ((self.theta1, self.theta2) :: self.prev_angles).take 144 := by
  have hg : ¬ dt > 0.02 := not_lt.mpr hdt
  rw [DoublePendulum.update, if_neg hg]
  simp only []
  split
  next hlen =>
    rw [List.dropLast_eq_take]
    congr 1
    simp only [List.length_cons] at hlen ⊢
    omega
  next hlen =>
    rw [List.take_of_length_le]
    simp only [List.length_cons] at hlen ⊢
    omega

/-- C5: starting from an empty trace, the trace never exceeds 144 pairs after
any sequence of `update` calls; and when a step pushes (`dt ≤ 0.02`), the new
trace is the pre-step pair at the front followed by the previous entries
truncated to the 144 newest, so a push beyond capacity evicts exactly the
oldest entry within the same call. -/
theorem trace_bounded_fifo :
    (∀ (self : DoublePendulum) (dts : List ℝ), self.prev_angles = [] →
        (updates self dts).prev_angles.length ≤ 144) ∧
      (∀ (self : DoublePendulum) (dt : ℝ), dt ≤ 0.02 →
        self.prev_angles.length ≤ 144 →
        (self.update dt).prev_angles
          = ((self.theta1, self.theta2) :: self.prev_angles).take 144) :=
  ⟨fun self dts he => updates_trace_length_le dts self (by simp [he]),
   fun self dt hdt h => update_trace_take self dt hdt h⟩

theorem trace_bounded_fifo_witness :
    (updates P0 [1 / 100]).prev_angles.length ≤ 144 ∧
      (P0.update (1 / 100)).prev_angles
        = ((P0.theta1, P0.theta2) :: P0.prev_angles).take 144 :=
  ⟨trace_bounded_fifo.1 P0 [1 / 100] rfl,
   trace_bounded_fifo.2 P0 (1 / 100) (by norm_num)
     (by simp [P0, DoublePendulum.new])⟩

/-- The ODE right-hand side reads only `length` from the pendulum record. -/
theorem runge_kutta_congr (s t : DoublePendulum) (hL : s.length = t.length)
    (p : DVec4) : s.runge_kutta_func p = t.runge_kutta_func p := by
  simp [DoublePendulum.runge_kutta_func, DoublePendulum.g1, DoublePendulum.g2,
    DoublePendulum.f1, DoublePendulum.f2, DoublePendulum.a1, DoublePendulum.a2, hL]

/-- stepping never changes the length field. -/
theorem update_length_eq (self : DoublePendulum) (dt : ℝ) :
    (self.update dt).length = self.length := by
  rw [DoublePendulum.update]; split <;> rfl

/-- One step of two pendulums agreeing on length, dynamic fields and trace
again agree on dynamic fields and trace. -/
theorem update_congr (s t : DoublePendulum) (dt : ℝ)
    (hL : s.length = t.length) (h1 : s.theta1 = t.theta1) (h2 : s.theta2 = t.theta2)
    (h3 : s.angular1 = t.angular1) (h4 : s.angular2 = t.angular2)
    (h5 : s.prev_angles = t.prev_angles) :
    (s.update dt).theta1 = (t.update dt).theta1 ∧
      (s.update dt).theta2 = (t.update dt).theta2 ∧
      (s.update dt).angular1 = (t.update dt).angular1 ∧
      (s.update dt).angular2 = (t.update dt).angular2 ∧
      (s.update dt).prev_angles = (t.update dt).prev_angles := by
  have hrk : ∀ q, s.runge_kutta_func q = t.runge_kutta_func q :=
    fun q => runge_kutta_congr s t hL q
  by_cases hg : dt > 0.02 <;>
    simp only [DoublePendulum.update, hg, if_true, if_false, ite_true, ite_false,
      h1, h2, h3, h4, h5, hrk, and_self]

/-- C8: the integrator is deterministic, its output depending only on the link
length, the dynamic 4-vector, the trace and the `dt` sequence: two pendulums
agreeing on those (whatever their origin, mass or color) have identical
dynamic state and identical traces after any number of steps. -/
theorem update_deterministic (s t : DoublePendulum) (dts : List ℝ)
    (hL : s.length = t.length) (h1 : s.theta1 = t.theta1) (h2 : s.theta2 = t.theta2)
    (h3 : s.angular1 = t.angular1) (h4 : s.angular2 = t.angular2)
    (h5 : s.prev_angles = t.prev_angles) :
    (updates s dts).theta1 = (updates t dts).theta1 ∧
      (updates s dts).theta2 = (updates t dts).theta2 ∧
      (updates s dts).angular1 = (updates t dts).angular1 ∧
      (updates s dts).angular2 = (updates t dts).angular2 ∧
      (updates s dts).prev_angles = (updates t dts).prev_angles := by
  induction dts generalizing s t with
  | nil => exact ⟨h1, h2, h3, h4, h5⟩
  | cons dt rest ih =>
      obtain ⟨e1, e2, e3, e4, e5⟩ := update_congr s t dt hL h1 h2 h3 h4 h5
      have hL2 : (s.update dt).length = (t.update dt).length := by
        rw [update_length_eq, update_length_eq, hL]
      exact ih (s.update dt) (t.update dt) hL2 e1 e2 e3 e4 e5

theorem update_deterministic_witness :
    (P0.length = P2.length ∧ P0.theta1 = P2.theta1 ∧ P0.theta2 = P2.theta2 ∧
      P0.angular1 = P2.angular1 ∧ P0.angular2 = P2.angular2 ∧
      P0.prev_angles = P2.prev_angles) ∧
      ((updates P0 [1 / 100]).theta1 = (updates P2 [1 / 100]).theta1 ∧
        (updates P0 [1 / 100]).theta2 = (updates P2 [1 / 100]).theta2 ∧
        (updates P0 [1 / 100]).angular1 = (updates P2 [1 / 100]).angular1 ∧
        (updates P0 [1 / 100]).angular2 = (updates P2 [1 / 100]).angular2 ∧
        (updates P0 [1 / 100]).prev_angles = (updates P2 [1 / 100]).prev_angles) :=
  ⟨⟨rfl, rfl, rfl, rfl, rfl, rfl⟩,
   update_deterministic P0 P2 [1 / 100] rfl rfl rfl rfl rfl rfl⟩

/-- C4 fails on the code: with `dt = 1 > 0.02` the guard returns before the
trace push, so nothing is pushed (here the trace stays empty), and with
`dt = -1 ≤ 0` the step is integrated backwards, moving `theta2` from `0`
to `-1`. -/
theorem update_guard_trace_cex :
    ¬ ((P0.update 1).prev_angles = (P0.theta1, P0.theta2) :: P0.prev_angles) ∧
      ¬ ((P1.update (-1)).theta2 = P1.theta2) := by
  constructor
  · have h : P0.update 1 = P0 := by
      rw [DoublePendulum.update, if_pos (by norm_num : (1 : ℝ) > 0.02)]
    rw [h]
    simp [P0, DoublePendulum.new]
  · have hg : ¬ ((-1 : ℝ) > 0.02) := by norm_num
    have e : (P1.update (-1)).theta2 = -1 := by
      rw [DoublePendulum.update, if_neg hg]
      norm_num [P1, P0, DoublePendulum.new, DoublePendulum.runge_kutta_func,
        DoublePendulum.g1, DoublePendulum.g2, DoublePendulum.f1,
        DoublePendulum.f2, DoublePendulum.a1, DoublePendulum.a2, g,
        DVec4.new, DVec4.add_def, DVec4.smul_def]
    rw [e]
    simp [P1, P0, DoublePendulum.new]

/-- C4 (amended): a single `update` with `dt = 0` leaves the four dynamic
fields exactly unchanged while still pushing the pre-step `(theta1, theta2)`
pair onto the front of the trace (below capacity no eviction occurs), whereas
a call with `dt > 0.02` leaves every field, the trace included, unchanged and
pushes nothing. -/
theorem update_zero_dt_pushes (self : DoublePendulum)
    (hcap : self.prev_angles.length < 144) :
    ((self.update 0).theta1 = self.theta1 ∧ (self.update 0).theta2 = self.theta2 ∧
      (self.update 0).angular1 = self.angular1 ∧
      (self.update 0).angular2 = self.angular2 ∧
      (self.update 0).prev_angles = (self.theta1, self.theta2) :: self.prev_angles) ∧
      (∀ dt : ℝ, dt > 0.02 → self.update dt = self) := by
  constructor
  · have hg : ¬ ((0 : ℝ) > 0.02) := by norm_num
    have hlen : ¬ (((self.theta1, self.theta2) :: self.prev_angles).length > 144) := by
      simp only [List.length_cons]; omega
    rw [DoublePendulum.update, if_neg hg]
    simp only [hlen, if_false, ite_false, DVec4.new, DVec4.add_def, DVec4.smul_def]
    norm_num
  · intro dt hdt
    rw [DoublePendulum.update, if_pos hdt]

theorem update_zero_dt_pushes_witness :
    P0.prev_angles.length < 144 ∧
      ((P0.update 0).theta1 = P0.theta1 ∧ (P0.update 0).theta2 = P0.theta2 ∧
        (P0.update 0).angular1 = P0.angular1 ∧
        (P0.update 0).angular2 = P0.angular2 ∧
        (P0.update 0).prev_angles = (P0.theta1, P0.theta2) :: P0.prev_angles) :=
  ⟨by norm_num [P0, DoublePendulum.new],
   (update_zero_dt_pushes P0 (by norm_num [P0, DoublePendulum.new])).1⟩

/-- C10: the endpoint projections are pure functions of the current state with
the spec's §4.3 formulas at `scale = 100`. -/
theorem endpoint_projection (self : DoublePendulum) :
    self.dx1 = self.length * 100 * Real.sin self.theta1 ∧
      self.dy1 = self.length * 100 * Real.cos self.theta1 ∧
      self.dx2 = self.length * 100 * (Real.sin self.theta1 + Real.sin self.theta2) ∧
      self.dy2 = self.length * 100 * (Real.cos self.theta1 + Real.cos self.theta2) :=
  ⟨rfl, rfl, rfl, rfl⟩

end DoublePendulumSim
